import Mathlib

/-!
Verification of the two core components of `asciify.calldata.space`:

* the selection-to-character-index algorithm of
  `src/components/AsciifyReact.tsx` (`handleSelectionChange`), and
* the ETag / conditional-caching middleware of `src/middleware.ts`
  (`digest`, `onRequest`).

The TypeScript code is shallowly embedded below.  Text leaves are
represented by their text lengths, in document order, and DOM node
identity by the leaf's position in that order (object identity of
distinct DOM nodes is faithfully modelled by distinct indices).
Byte sequences are lists of naturals below 256.
-/

/-! ## SelectionIndexer (src/components/AsciifyReact.tsx) -/

/--
The tree-walker loop of `handleSelectionChange`
(`AsciifyReact.tsx` lines 84-103): walk the text leaves in document
order, keeping a running character offset `currentOffset`; when the
current leaf is the range's start container set
`startOffset = currentOffset + range.startOffset`; when it is the end
container set `endOffset = currentOffset + range.endOffset` and break;
otherwise advance `currentOffset` by the leaf's text length.
`so`/`eo` are the `startOffset`/`endOffset` accumulators (both
initialised to 0 by the caller), `i` the index of the current leaf in
document order.
-/
def walkLeaves (startLeaf startOff endLeaf endOff : Nat) :
    List Nat → Nat → Nat → Nat → Nat → Nat × Nat
  | [], _, _, so, eo => (so, eo)
  | len :: rest, i, currentOffset, so, eo =>
    if i = endLeaf then
      ((if i = startLeaf then currentOffset + startOff else so), currentOffset + endOff)
    else
      walkLeaves startLeaf startOff endLeaf endOff rest (i + 1) (currentOffset + len)
        (if i = startLeaf then currentOffset + startOff else so) eo

/--
The index-collection loop of `handleSelectionChange`
(`AsciifyReact.tsx` lines 106-112):
`for (let i = startOffset; i < endOffset && i < content.length; i++)
 newSelectedChars.add(i)`.
-/
def collectRange (endOffset clen : Nat) (i : Nat) : List Nat :=
  if h : i < endOffset ∧ i < clen then i :: collectRange endOffset clen (i + 1) else []
termination_by endOffset - i
decreasing_by
  exact Nat.sub_lt_sub_left h.1 (Nat.lt_succ_self i)

/--
The selection-to-index computation inside the `try` block of
`handleSelectionChange`: run the walk from leaf index 0 with running
offset 0 and both accumulators 0, then collect the indices from
`startOffset` up to `endOffset`, clamped by the content length.
-/
def computeSelectedIndices (leaves : List Nat)
    (startLeaf startOff endLeaf endOff clen : Nat) : List Nat :=
  let r := walkLeaves startLeaf startOff endLeaf endOff leaves 0 0 0 0
  collectRange r.2 clen r.1

/--
The data `handleSelectionChange` reads from `window.getSelection()`:
`rangeCount`, the length of `selection.toString()`, whether
`containerRef.current.contains(range.commonAncestorContainer)` holds,
and the range anchors `(startContainer, startOffset)` /
`(endContainer, endOffset)` with the containers identified by their
position among the text leaves under the container in document order.
-/
structure SelectionInfo where
  rangeCount : Nat
  textLength : Nat
  containedInRoot : Bool
  leaves : List Nat
  startLeaf : Nat
  startOff : Nat
  endLeaf : Nat
  endOff : Nat
deriving DecidableEq

/--
The guard structure of `handleSelectionChange`
(`AsciifyReact.tsx` lines 61-118): `newSelectedChars` starts empty; it
is filled only when a selection exists, `rangeCount > 0`, the selected
text is non-empty, and the range's common ancestor is contained in the
component's container; otherwise the empty set is kept.
-/
def handleSelectionChange (sel : Option SelectionInfo) (clen : Nat) : List Nat :=
  match sel with
  | none => []
  | some s =>
    if s.rangeCount > 0 ∧ s.textLength > 0 then
      if s.containedInRoot then
        computeSelectedIndices s.leaves s.startLeaf s.startOff s.endLeaf s.endOff clen
      else []
    else []

/--
The `try`/`catch` of `handleSelectionChange`
(`AsciifyReact.tsx` lines 80-115): the walk-and-collect computation is
attempted; on success its indices (and no log entry) are produced; on
any failure the catch branch leaves the selected set empty and logs
`"Selection calculation failed:"` with the error.  The first component
is the selected-index set passed to `setSelectedChars`, the second the
`console.warn` side-channel log.
-/
def handleSelectionResult (walkResult : Except String (Nat × Nat)) (clen : Nat) :
    List Nat × List String :=
  match walkResult with
  | Except.ok r => (collectRange r.2 clen r.1, [])
  | Except.error e => ([], ["Selection calculation failed: " ++ e])

/-! ### Lemmas about the walk and the collection loop -/

theorem collectRange_mem_aux (endOffset clen : Nat) :
    ∀ fuel i, endOffset - i ≤ fuel →
      ∀ j, j ∈ collectRange endOffset clen i ↔ i ≤ j ∧ j < endOffset ∧ j < clen := by
  intro fuel
  induction fuel with
  | zero =>
    intro i hf j
    rw [collectRange]
    have hio : endOffset ≤ i := Nat.le_of_sub_eq_zero (Nat.le_zero.mp hf)
    have : ¬ (i < endOffset ∧ i < clen) := by
      intro h
      exact absurd h.1 (Nat.not_lt.mpr hio)
    rw [dif_neg this]
    simp only [List.not_mem_nil, false_iff]
    intro h
    exact absurd (Nat.lt_of_le_of_lt h.1 h.2.1) (Nat.not_lt.mpr hio)
  | succ n ih =>
    intro i hf j
    rw [collectRange]
    by_cases h : i < endOffset ∧ i < clen
    · rw [dif_pos h]
      simp only [List.mem_cons]
      rw [ih (i + 1) (by omega) j]
      omega
    · rw [dif_neg h]
      simp only [List.not_mem_nil, false_iff]
      omega

theorem collectRange_mem (endOffset clen i j : Nat) :
    j ∈ collectRange endOffset clen i ↔ i ≤ j ∧ j < endOffset ∧ j < clen :=
  collectRange_mem_aux endOffset clen (endOffset - i) i (Nat.le_refl _) j

/-- Once the walk has passed the start leaf, the `startOffset`
accumulator is final and only the end leaf is still looked for. -/
theorem walkLeaves_past_start (startLeaf startOff endLeaf endOff : Nat) :
    ∀ (ls : List Nat) (i c so eo : Nat),
      startLeaf < i → i ≤ endLeaf → endLeaf < i + ls.length →
      walkLeaves startLeaf startOff endLeaf endOff ls i c so eo =
        (so, c + ((ls.take (endLeaf - i)).sum + endOff)) := by
  intro ls
  induction ls with
  | nil =>
    intro i c so eo hs he hl
    simp at hl
    omega
  | cons len rest ih =>
    intro i c so eo hs he hl
    rw [walkLeaves]
    have hne : ¬ (i = startLeaf) := by omega
    by_cases hend : i = endLeaf
    · rw [if_pos hend, if_neg hne]
      subst hend
      simp
    · rw [if_neg hend, if_neg hne]
      rw [ih (i + 1) (c + len) so eo (by omega) (by omega) (by simp at hl; omega)]
      have htake : endLeaf - i = (endLeaf - (i + 1)) + 1 := by omega
      rw [htake]
      simp only [List.take_succ_cons, List.sum_cons, Prod.mk.injEq, true_and, and_true]
      omega

/-- The walk computes `startOffset` as the running offset at the start
leaf plus the start anchor's in-node offset, and `endOffset` likewise
at the end leaf, where the running offset at leaf `k` is the sum of the
text lengths of the leaves before `k`. -/
theorem walkLeaves_offsets (startLeaf startOff endLeaf endOff : Nat) :
    ∀ (ls : List Nat) (i c so eo : Nat),
      i ≤ startLeaf → startLeaf ≤ endLeaf → endLeaf < i + ls.length →
      walkLeaves startLeaf startOff endLeaf endOff ls i c so eo =
        (c + ((ls.take (startLeaf - i)).sum + startOff),
         c + ((ls.take (endLeaf - i)).sum + endOff)) := by
  intro ls
  induction ls with
  | nil =>
    intro i c so eo hs he hl
    simp at hl
    omega
  | cons len rest ih =>
    intro i c so eo hs he hl
    rw [walkLeaves]
    by_cases hstart : i = startLeaf
    · subst hstart
      by_cases hend : i = endLeaf
      · subst hend
        simp
      · rw [if_neg hend, if_pos rfl]
        rw [walkLeaves_past_start i startOff endLeaf endOff rest (i + 1)
          (c + len) (c + startOff) eo (by omega) (by omega) (by simp at hl; omega)]
        have h2 : endLeaf - i = (endLeaf - (i + 1)) + 1 := by omega
        rw [Nat.sub_self, h2]
        simp only [List.take_succ_cons, List.sum_cons, List.take_zero, List.sum_nil,
          Prod.mk.injEq, true_and, and_true]
        omega
    · have hend : ¬ (i = endLeaf) := by omega
      rw [if_neg hend, if_neg hstart]
      rw [ih (i + 1) (c + len) so eo (by omega) (by omega) (by simp at hl; omega)]
      have h1 : startLeaf - i = (startLeaf - (i + 1)) + 1 := by omega
      have h2 : endLeaf - i = (endLeaf - (i + 1)) + 1 := by omega
      rw [h1, h2]
      simp only [List.take_succ_cons, List.sum_cons, Prod.mk.injEq, true_and, and_true]
      omega

/-- Characterisation of `computeSelectedIndices` when both anchors lie
on text leaves under the container and the range is normalised
(start leaf at or before end leaf in document order). -/
theorem computeSelectedIndices_spec (leaves : List Nat)
    (startLeaf startOff endLeaf endOff clen : Nat)
    (hse : startLeaf ≤ endLeaf) (hlt : endLeaf < leaves.length) :
    walkLeaves startLeaf startOff endLeaf endOff leaves 0 0 0 0 =
      ((leaves.take startLeaf).sum + startOff, (leaves.take endLeaf).sum + endOff) ∧
    ∀ i, i ∈ computeSelectedIndices leaves startLeaf startOff endLeaf endOff clen ↔
      ((leaves.take startLeaf).sum + startOff ≤ i ∧
        i < min ((leaves.take endLeaf).sum + endOff) clen) := by
  have hwalk := walkLeaves_offsets startLeaf startOff endLeaf endOff leaves 0 0 0 0
    (Nat.zero_le _) hse (by omega)
  simp only [Nat.sub_zero, Nat.zero_add] at hwalk
  refine ⟨hwalk, ?_⟩
  intro i
  unfold computeSelectedIndices
  rw [hwalk]
  rw [collectRange_mem]
  omega

/-! ## ConditionalCacheMiddleware (src/middleware.ts) -/

/-- `2^32`, the word modulus of SHA-256's 32-bit arithmetic. -/
def w32 : Nat := 4294967296

/-- Right rotation of a 32-bit word (FIPS 180-4 `ROTR`), expressed on
naturals: the low `n` bits move to the top. -/
def rotr32 (n x : Nat) : Nat := (x / 2 ^ n + x % 2 ^ n * 2 ^ (32 - n)) % w32

/-- Bitwise complement of a 32-bit word. -/
def not32 (x : Nat) : Nat := 4294967295 - x % w32

/-- FIPS 180-4 `Ch(x,y,z)`. -/
def chFn (x y z : Nat) : Nat := (x &&& y) ^^^ (not32 x &&& z)

/-- FIPS 180-4 `Maj(x,y,z)`. -/
def majFn (x y z : Nat) : Nat := (x &&& y) ^^^ (x &&& z) ^^^ (y &&& z)

/-- FIPS 180-4 `Σ₀`. -/
def bigSigma0 (x : Nat) : Nat := rotr32 2 x ^^^ rotr32 13 x ^^^ rotr32 22 x

/-- FIPS 180-4 `Σ₁`. -/
def bigSigma1 (x : Nat) : Nat := rotr32 6 x ^^^ rotr32 11 x ^^^ rotr32 25 x

/-- FIPS 180-4 `σ₀`. -/
def smallSigma0 (x : Nat) : Nat := rotr32 7 x ^^^ rotr32 18 x ^^^ x / 2 ^ 3

/-- FIPS 180-4 `σ₁`. -/
def smallSigma1 (x : Nat) : Nat := rotr32 17 x ^^^ rotr32 19 x ^^^ x / 2 ^ 10

/-- Round constants of SHA-256 (FIPS 180-4 §4.2.2), in decimal: the first
32 bits of the fractional parts of the cube roots of the first 64 primes. -/
def sha256K : List Nat :=
  [1116352408, 1899447441, 3049323471, 3921009573,
   961987163, 1508970993, 2453635748, 2870763221,
   3624381080, 310598401, 607225278, 1426881987,
   1925078388, 2162078206, 2614888103, 3248222580,
   3835390401, 4022224774, 264347078, 604807628,
   770255983, 1249150122, 1555081692, 1996064986,
   2554220882, 2821834349, 2952996808, 3210313671,
   3336571891, 3584528711, 113926993, 338241895,
   666307205, 773529912, 1294757372, 1396182291,
   1695183700, 1986661051, 2177026350, 2456956037,
   2730485921, 2820302411, 3259730800, 3345764771,
   3516065817, 3600352804, 4094571909, 275423344,
   430227734, 506948616, 659060556, 883997877,
   958139571, 1322822218, 1537002063, 1747873779,
   1955562222, 2024104815, 2227730452, 2361852424,
   2428436474, 2756734187, 3204031479, 3329325298]

/-- The SHA-256 working state / intermediate hash value: eight 32-bit
words (FIPS 180-4 `a..h`). -/
structure Hash8 where
  a : Nat
  b : Nat
  c : Nat
  d : Nat
  e : Nat
  f : Nat
  g : Nat
  h : Nat
deriving DecidableEq

/-- Initial hash value of SHA-256 (FIPS 180-4 §5.3.3), in decimal. -/
def sha256IV : Hash8 :=
  ⟨1779033703, 3144134277, 1013904242, 2773480762,
   1359893119, 2600822924, 528734635, 1541459225⟩

/-- Big-endian serialisation of a 32-bit word into four bytes. -/
def wordBytes (w : Nat) : List Nat :=
  [w / 2 ^ 24 % 256, w / 2 ^ 16 % 256, w / 2 ^ 8 % 256, w % 256]

/-- Big-endian interpretation of a byte list as one word. -/
def bytesToWord (bs : List Nat) : Nat := bs.foldl (fun acc b => acc * 256 + b) 0

/-- The sixteen message words `W₀..W₁₅` of a 64-byte block. -/
def blockWords (block : List Nat) : List Nat :=
  (List.range 16).map (fun j => bytesToWord ((block.drop (4 * j)).take 4))

/-- Message-schedule extension: append
`W_t = σ₁(W_{t-2}) + W_{t-7} + σ₀(W_{t-15}) + W_{t-16} (mod 2³²)`
`count` times (FIPS 180-4 §6.2.2 step 1). -/
def extendSchedule (ws : List Nat) : Nat → List Nat
  | 0 => ws
  | count + 1 =>
    extendSchedule
      (ws ++ [(smallSigma1 (ws.getD (ws.length - 2) 0) + ws.getD (ws.length - 7) 0 +
               smallSigma0 (ws.getD (ws.length - 15) 0) + ws.getD (ws.length - 16) 0) % w32])
      count

/-- One SHA-256 compression round; `kw` is `K_t + W_t (mod 2³²)`. -/
def roundStep (st : Hash8) (kw : Nat) : Hash8 :=
  let t1 := (st.h + bigSigma1 st.e + chFn st.e st.f st.g + kw) % w32
  let t2 := (bigSigma0 st.a + majFn st.a st.b st.c) % w32
  ⟨(t1 + t2) % w32, st.a, st.b, st.c, (st.d + t1) % w32, st.e, st.f, st.g⟩

/-- Process one 64-byte block: run the 64 rounds over the extended
message schedule and add the result into the chaining value. -/
def compressBlock (st : Hash8) (block : List Nat) : Hash8 :=
  let ws := extendSchedule (blockWords block) 48
  let fin := (sha256K.zip ws).foldl (fun s p => roundStep s ((p.1 + p.2) % w32)) st
  ⟨(st.a + fin.a) % w32, (st.b + fin.b) % w32, (st.c + fin.c) % w32, (st.d + fin.d) % w32,
   (st.e + fin.e) % w32, (st.f + fin.f) % w32, (st.g + fin.g) % w32, (st.h + fin.h) % w32⟩

/-- SHA-256 padding (FIPS 180-4 §5.1.1): append the byte `0x80`, then
the least number of zero bytes making the length `≡ 56 (mod 64)`, then
the message bit length as eight big-endian bytes. -/
def padMessage (msg : List Nat) : List Nat :=
  msg ++ [128] ++ List.replicate ((119 - msg.length % 64) % 64) 0 ++
    (List.range 8).map (fun i => 8 * msg.length / 2 ^ (8 * (7 - i)) % 256)

/-- Split a (padded) byte list into 64-byte blocks. -/
def toBlocks (bs : List Nat) : List (List Nat) :=
  if h : bs = [] then [] else bs.take 64 :: toBlocks (bs.drop 64)
termination_by bs.length
decreasing_by
  rw [List.length_drop]
  exact Nat.sub_lt (List.length_pos.mpr h) (by norm_num)

/--
Modelled from the spec: the platform primitive
`crypto.subtle.digest("SHA-256", bytes)` called by `digest` in
`src/middleware.ts` (the Web Crypto API is not part of this
repository); per FIPS 180-4 it pads the message, compresses each
64-byte block starting from the initial hash value and serialises the
eight final words big-endian, yielding the 32-byte digest.
-/
def sha256 (msg : List Nat) : List Nat :=
  let finalState := (toBlocks (padMessage msg)).foldl compressBlock sha256IV
  [finalState.a, finalState.b, finalState.c, finalState.d,
   finalState.e, finalState.f, finalState.g, finalState.h].flatMap wordBytes

/-- One hex digit as produced by JavaScript `Number.toString(16)`:
`0-9` then lowercase `a-f`. -/
def hexDigitChar (n : Nat) : Char :=
  if n < 10 then Char.ofNat (48 + n) else Char.ofNat (87 + n)

/-- `b.toString(16).padStart(2, "0")` for a byte `b < 256`: exactly two
lowercase hex digits, zero-padded. -/
def byteHexChars (b : Nat) : List Char := [hexDigitChar (b / 16), hexDigitChar (b % 16)]

/-- `digest` of `src/middleware.ts` lines 3-11, applied to a byte
sequence: hash with SHA-256, then
`Array.from(new Uint8Array(hash)).map((b) => b.toString(16).padStart(2, "0")).join("")`. -/
def digestHex (val : List Nat) : String := String.mk ((sha256 val).flatMap byteHexChars)

/-- The sixteen lowercase hexadecimal digits, `0-9` followed by
`a-f`. -/
def lowerHexDigits : List Char :=
  (List.range 10).map (fun n => Char.ofNat (48 + n)) ++
    (List.range 6).map (fun n => Char.ofNat (97 + n))

/-- ASCII lowercasing of one character. -/
def lowerChar (c : Char) : Char :=
  if 'A' ≤ c ∧ c ≤ 'Z' then Char.ofNat (c.toNat + 32) else c

/-- ASCII lowercasing of a header name (HTTP header names are
case-insensitive; the Fetch `Headers` class compares them
byte-lowercased). -/
def lowerName (s : String) : String := String.mk (s.data.map lowerChar)

/-- Whether a stored header entry matches a queried header name,
case-insensitively. -/
def headerMatches (n : String) (p : String × String) : Bool := lowerName p.1 == lowerName n

/--
Modelled from the spec: the Fetch-API `Headers` class used by
`src/middleware.ts` (a platform API, not part of this repository): an
ordered list of name/value entries with case-insensitive name lookup.
-/
structure Headers where
  entries : List (String × String)
deriving DecidableEq

/-- `headers.get(name)`: the value of the first entry whose name
matches case-insensitively, or `null`. -/
def Headers.get? (hs : Headers) (n : String) : Option String :=
  (hs.entries.find? (headerMatches n)).map Prod.snd

/-- `headers.set(name, value)`: replace the value of the matching
entries if any exist, otherwise append a new entry. -/
def Headers.set (hs : Headers) (n v : String) : Headers :=
  if hs.entries.any (headerMatches n) then
    ⟨hs.entries.map (fun p => if headerMatches n p then (p.1, v) else p)⟩
  else
    ⟨hs.entries ++ [(n, v)]⟩

/-- The request data `onRequest` reads: `context.request.headers`. -/
structure Request where
  headers : Headers
deriving DecidableEq

/--
Modelled from the spec: the Fetch-API `Response` at the middleware
boundary — status, status text, headers, and an optional body.  The
body, when present, is the response's byte stream, represented as the
list of chunks in which the bytes arrive; `response.arrayBuffer()`
drains the stream into the concatenation of the chunks.
-/
structure Response where
  status : Nat
  statusText : String
  headers : Headers
  body : Option (List (List Nat))
deriving DecidableEq

/-- The byte sequence of a response body (independent of chunking), if
a body is present. -/
def Response.bodyBytes (r : Response) : Option (List Nat) := r.body.map List.flatten

/-- JavaScript truthiness of `headers.get(...)`: `null` and the empty
string are falsy, every other string is truthy. -/
def strTruthy : Option String → Bool
  | none => false
  | some s => !(s == "")

/-- The `Cache-Control` value set by the middleware. -/
def cacheControlValue : String := "public, max-age=31536000, must-revalidate"

/-- `new Response(null, { status: 304, headers })`: status 304, default
(empty) status text, no body. -/
def notModified304 (hs : Headers) : Response :=
  { status := 304, statusText := "", headers := hs, body := none }

/-- The strong ETag token the middleware computes for a byte buffer:
`` etag = `"${hash}"` `` (`src/middleware.ts` line 47). -/
def etagOf (buf : List Nat) : String := "\"" ++ digestHex buf ++ "\""

/--
`onRequest` of `src/middleware.ts` (lines 13-69), as a function of the
request and of the response returned by `next()`:

* if the response carries a truthy `ETag` header, return a fresh 304
  with exactly `ETag` and `Cache-Control` when `If-None-Match` equals
  it, else return the response as-is;
* if the response has no body, forward it;
* otherwise drain the body, hash it, and either answer 304 (original
  headers plus `ETag`/`Cache-Control`) on an `If-None-Match` match, or
  return a new response with the same status/statusText, the drained
  buffer as body, and the original headers plus `ETag`/`Cache-Control`.
-/
def onRequest (req : Request) (response : Response) : Response :=
  let ifNoneMatch := req.headers.get? "if-none-match"
  let existingEtag := response.headers.get? "etag"
  if strTruthy existingEtag then
    if strTruthy ifNoneMatch && ifNoneMatch == existingEtag then
      notModified304 (((Headers.mk []).set "ETag" (existingEtag.getD "")).set
        "Cache-Control" cacheControlValue)
    else response
  else
    match response.body with
    | none => response
    | some chunks =>
      let buf := chunks.flatten
      let etag := etagOf buf
      if strTruthy ifNoneMatch && ifNoneMatch == some etag then
        notModified304 ((response.headers.set "ETag" etag).set
          "Cache-Control" cacheControlValue)
      else
        { status := response.status, statusText := response.statusText,
          headers := (response.headers.set "ETag" etag).set
            "Cache-Control" cacheControlValue,
          body := some [buf] }

/--
`onRequest` with the draining step `await clone.arrayBuffer()` made
explicit as a possibly-failing effect (`drain`).  The source contains
no `try`/`catch` around the drain or the hash, so a rejection there
propagates out of `onRequest`; every other path is unchanged from
`onRequest` above.
-/
def onRequestE (drain : Response → Except String (List Nat)) (req : Request)
    (response : Response) : Except String Response :=
  let ifNoneMatch := req.headers.get? "if-none-match"
  let existingEtag := response.headers.get? "etag"
  if strTruthy existingEtag then
    if strTruthy ifNoneMatch && ifNoneMatch == existingEtag then
      Except.ok (notModified304 (((Headers.mk []).set "ETag" (existingEtag.getD "")).set
        "Cache-Control" cacheControlValue))
    else Except.ok response
  else
    match response.body with
    | none => Except.ok response
    | some _ =>
      match drain response with
      | Except.error e => Except.error e
      | Except.ok buf =>
        let etag := etagOf buf
        if strTruthy ifNoneMatch && ifNoneMatch == some etag then
          Except.ok (notModified304 ((response.headers.set "ETag" etag).set
            "Cache-Control" cacheControlValue))
        else
          let tagged : Response :=
            { status := response.status, statusText := response.statusText,
              headers := (response.headers.set "ETag" etag).set
                "Cache-Control" cacheControlValue,
              body := some [buf] }
          Except.ok tagged

/-! ### Lemmas about header lookup and update -/

theorem bool_ne_true {b : Bool} (hb : b = false) : ¬ b = true := by
  simp [hb]

theorem headerMatches_congr (n m : String) (hnm : lowerName n = lowerName m)
    (p : String × String) : headerMatches n p = headerMatches m p := by
  unfold headerMatches
  rw [hnm]

theorem find?_snd_replace (n m v : String) (hnm : lowerName n = lowerName m) :
    ∀ l : List (String × String), l.any (headerMatches m) = true →
      ((l.map (fun p => if headerMatches m p then (p.1, v) else p)).find?
        (headerMatches n)).map Prod.snd = some v := by
  intro l
  induction l with
  | nil =>
    intro hany
    simp at hany
  | cons q t ih =>
    intro hany
    simp only [List.map_cons]
    by_cases hq : headerMatches m q = true
    · rw [if_pos hq]
      have hq' : headerMatches n (q.1, v) = true := by
        rw [headerMatches_congr n m hnm]
        unfold headerMatches at hq ⊢
        exact hq
      rw [List.find?_cons_of_pos _ hq']
      simp
    · rw [if_neg hq]
      have hq2 : ¬ headerMatches n q = true := by
        rw [headerMatches_congr n m hnm]
        exact hq
      rw [List.find?_cons_of_neg _ hq2]
      apply ih
      rw [List.any_cons] at hany
      cases hta : t.any (headerMatches m)
      · rw [hta] at hany
        cases hqb : headerMatches m q
        · rw [hqb] at hany
          simp at hany
        · exact absurd hqb hq
      · rfl

theorem find?_snd_append (n m v : String) (hnm : lowerName n = lowerName m) :
    ∀ l : List (String × String), l.any (headerMatches m) = false →
      ((l ++ [(m, v)]).find? (headerMatches n)).map Prod.snd = some v := by
  intro l
  induction l with
  | nil =>
    intro _
    simp only [List.nil_append]
    have hm : headerMatches n (m, v) = true := by
      rw [headerMatches_congr n m hnm]
      unfold headerMatches
      simp
    rw [List.find?_cons_of_pos _ hm]
    simp
  | cons q t ih =>
    intro hany
    rw [List.any_cons] at hany
    have hq : ¬ headerMatches m q = true := by
      cases hqb : headerMatches m q
      · exact bool_ne_true rfl
      · rw [hqb] at hany
        simp at hany
    have hq2 : ¬ headerMatches n q = true := by
      rw [headerMatches_congr n m hnm]
      exact hq
    simp only [List.cons_append]
    rw [List.find?_cons_of_neg _ hq2]
    apply ih
    cases hta : t.any (headerMatches m)
    · rfl
    · rw [hta] at hany
      simp at hany

theorem find?_replace_ne (n m v : String) (hnm : lowerName n ≠ lowerName m) :
    ∀ l : List (String × String),
      (l.map (fun p => if headerMatches m p then (p.1, v) else p)).find?
        (headerMatches n) = l.find? (headerMatches n) := by
  intro l
  induction l with
  | nil => rfl
  | cons q t ih =>
    simp only [List.map_cons]
    by_cases hm : headerMatches m q = true
    · rw [if_pos hm]
      have hn : ¬ headerMatches n q = true := by
        intro hnb
        apply hnm
        unfold headerMatches at hnb hm
        rw [← beq_iff_eq.mp hnb, beq_iff_eq.mp hm]
      have hn2 : ¬ headerMatches n (q.1, v) = true := by
        unfold headerMatches at hn ⊢
        exact hn
      rw [List.find?_cons_of_neg _ hn2, List.find?_cons_of_neg _ hn]
      exact ih
    · rw [if_neg hm]
      by_cases hn : headerMatches n q = true
      · rw [List.find?_cons_of_pos _ hn, List.find?_cons_of_pos _ hn]
      · rw [List.find?_cons_of_neg _ hn, List.find?_cons_of_neg _ hn]
        exact ih

theorem find?_append_ne (n m v : String) (hnm : lowerName n ≠ lowerName m) :
    ∀ l : List (String × String),
      (l ++ [(m, v)]).find? (headerMatches n) = l.find? (headerMatches n) := by
  intro l
  induction l with
  | nil =>
    simp only [List.nil_append]
    have hm : ¬ headerMatches n (m, v) = true := by
      intro hb
      apply hnm
      unfold headerMatches at hb
      exact (beq_iff_eq.mp hb).symm
    rw [List.find?_cons_of_neg _ hm]
  | cons q t ih =>
    simp only [List.cons_append]
    by_cases hn : headerMatches n q = true
    · rw [List.find?_cons_of_pos _ hn, List.find?_cons_of_pos _ hn]
    · rw [List.find?_cons_of_neg _ hn, List.find?_cons_of_neg _ hn]
      exact ih

/-- `set` followed by a case-insensitively matching `get` yields the
value just set. -/
theorem Headers.get?_set_match (hs : Headers) (n m v : String)
    (hnm : lowerName n = lowerName m) : (hs.set m v).get? n = some v := by
  unfold Headers.set Headers.get?
  by_cases hany : hs.entries.any (headerMatches m) = true
  · rw [if_pos hany]
    exact find?_snd_replace n m v hnm hs.entries hany
  · rw [if_neg hany]
    exact find?_snd_append n m v hnm hs.entries (eq_false_of_ne_true hany)

/-- `set` leaves lookups of case-insensitively different names
unchanged. -/
theorem Headers.get?_set_ne (hs : Headers) (n m v : String)
    (hnm : lowerName n ≠ lowerName m) : (hs.set m v).get? n = hs.get? n := by
  unfold Headers.set Headers.get?
  by_cases hany : hs.entries.any (headerMatches m) = true
  · rw [if_pos hany]
    rw [find?_replace_ne n m v hnm hs.entries]
  · rw [if_neg hany]
    rw [find?_append_ne n m v hnm hs.entries]

/-! ### Branch lemmas for the middleware -/

theorem etagOf_ne_empty (buf : List Nat) : etagOf buf ≠ "" := by
  intro h
  have hlen := congrArg String.length h
  rw [etagOf, String.length_append, String.length_append] at hlen
  have h1 : ("\"" : String).length = 1 := rfl
  have h2 : ("" : String).length = 0 := rfl
  rw [h1, h2] at hlen
  omega

/-- Producer-set validator branch, `If-None-Match` matching
(`src/middleware.ts` lines 23-30): a fresh 304 carrying exactly the
validator and the cache directive. -/
theorem onRequest_existing_match (req : Request) (resp : Response) (v : String)
    (hE : resp.headers.get? "etag" = some v) (hv : v ≠ "")
    (hM : req.headers.get? "if-none-match" = some v) :
    onRequest req resp =
      notModified304 ⟨[("ETag", v), ("Cache-Control", cacheControlValue)]⟩ := by
  simp only [onRequest]
  rw [hE, hM]
  have hvb : (v == "") = false := by
    simp [hv]
  simp only [strTruthy, hvb, Bool.not_false, if_true, beq_self_eq_true, Bool.and_self,
    Option.getD_some]
  rfl

/-- Producer-set validator branch, `If-None-Match` not matching
(`src/middleware.ts` lines 31-33): the response is forwarded as-is. -/
theorem onRequest_existing_nomatch (req : Request) (resp : Response) (v : String)
    (hE : resp.headers.get? "etag" = some v) (hv : v ≠ "")
    (hM : req.headers.get? "if-none-match" ≠ some v) :
    onRequest req resp = resp := by
  simp only [onRequest]
  rw [hE]
  have hmb : (req.headers.get? "if-none-match" == some v) = false := by
    simp [hM]
  have hvb : (v == "") = false := by
    simp [hv]
  simp [strTruthy, hvb, hmb]

/-- No-body branch (`src/middleware.ts` lines 35-37): the response is
forwarded as-is. -/
theorem onRequest_nobody (req : Request) (resp : Response)
    (hE : strTruthy (resp.headers.get? "etag") = false)
    (hb : resp.body = none) :
    onRequest req resp = resp := by
  simp only [onRequest]
  rw [hE, hb]
  simp

/-- Computed validator branch, `If-None-Match` matching
(`src/middleware.ts` lines 50-56): a 304 whose headers are the original
response headers with `ETag` and `Cache-Control` set. -/
theorem onRequest_computed_match (req : Request) (resp : Response) (chunks : List (List Nat))
    (hE : strTruthy (resp.headers.get? "etag") = false)
    (hb : resp.body = some chunks)
    (hM : req.headers.get? "if-none-match" = some (etagOf chunks.flatten)) :
    onRequest req resp =
      notModified304 ((resp.headers.set "ETag" (etagOf chunks.flatten)).set
        "Cache-Control" cacheControlValue) := by
  simp only [onRequest]
  rw [hE, hb, hM]
  have h1 : (etagOf chunks.flatten == "") = false := by
    simp [etagOf_ne_empty chunks.flatten]
  simp [strTruthy, h1]

/-- Computed validator branch, `If-None-Match` not matching
(`src/middleware.ts` lines 58-69): a new response with the original
status/statusText, the drained buffer as body, and the original headers
with `ETag` and `Cache-Control` set. -/
theorem onRequest_tagged (req : Request) (resp : Response) (chunks : List (List Nat))
    (hE : strTruthy (resp.headers.get? "etag") = false)
    (hb : resp.body = some chunks)
    (hM : req.headers.get? "if-none-match" ≠ some (etagOf chunks.flatten)) :
    onRequest req resp =
      { status := resp.status, statusText := resp.statusText,
        headers := (resp.headers.set "ETag" (etagOf chunks.flatten)).set
          "Cache-Control" cacheControlValue,
        body := some [chunks.flatten] } := by
  simp only [onRequest]
  rw [hE, hb]
  have hmb : (req.headers.get? "if-none-match" == some (etagOf chunks.flatten)) = false := by
    simp [hM]
  simp [hmb]

/-- Whenever the middleware computes a validator (no producer validator,
body present), the outgoing response carries it as its `ETag` header —
on both the 304 and the tagged path. -/
theorem onRequest_computed_etagHeader (req : Request) (resp : Response)
    (chunks : List (List Nat))
    (hE : strTruthy (resp.headers.get? "etag") = false)
    (hb : resp.body = some chunks) :
    (onRequest req resp).headers.get? "etag" = some (etagOf chunks.flatten) := by
  have hcc : lowerName "etag" ≠ lowerName "Cache-Control" := by decide
  have het : lowerName "etag" = lowerName "ETag" := by decide
  by_cases hM : req.headers.get? "if-none-match" = some (etagOf chunks.flatten)
  · rw [onRequest_computed_match req resp chunks hE hb hM]
    show ((resp.headers.set "ETag" (etagOf chunks.flatten)).set
      "Cache-Control" cacheControlValue).get? "etag" = _
    rw [Headers.get?_set_ne _ _ _ _ hcc, Headers.get?_set_match _ _ _ _ het]
  · rw [onRequest_tagged req resp chunks hE hb hM]
    show ((resp.headers.set "ETag" (etagOf chunks.flatten)).set
      "Cache-Control" cacheControlValue).get? "etag" = _
    rw [Headers.get?_set_ne _ _ _ _ hcc, Headers.get?_set_match _ _ _ _ het]

/-- In the effectful model, a failing drain propagates out of the
middleware: the source has no `try`/`catch` around
`clone.arrayBuffer()` / `digest`. -/
theorem onRequestE_drain_error (drain : Response → Except String (List Nat))
    (req : Request) (resp : Response) (chunks : List (List Nat)) (e : String)
    (hE : strTruthy (resp.headers.get? "etag") = false)
    (hb : resp.body = some chunks)
    (hd : drain resp = Except.error e) :
    onRequestE drain req resp = Except.error e := by
  simp only [onRequestE]
  rw [hE, hb, hd]
  simp

/-! ### Shape of the computed validator -/

theorem wordBytes_lt (w : Nat) : ∀ b ∈ wordBytes w, b < 256 := by
  intro b hb
  simp only [wordBytes, List.mem_cons, List.not_mem_nil, or_false] at hb
  rcases hb with h | h | h | h <;> subst h <;> exact Nat.mod_lt _ (by norm_num)

theorem sha256_length (msg : List Nat) : (sha256 msg).length = 32 := rfl

theorem sha256_lt (msg : List Nat) : ∀ b ∈ sha256 msg, b < 256 := by
  intro b hb
  simp only [sha256, List.mem_flatMap] at hb
  obtain ⟨w, _, hbw⟩ := hb
  exact wordBytes_lt w b hbw

theorem hexDigitChar_mem : ∀ n, n < 16 → hexDigitChar n ∈ lowerHexDigits := by decide

theorem flatMap_byteHexChars_length :
    ∀ l : List Nat, (l.flatMap byteHexChars).length = 2 * l.length := by
  intro l
  induction l with
  | nil => rfl
  | cons a t ih =>
    rw [List.flatMap_cons, List.length_append, ih]
    simp only [byteHexChars, List.length_cons, List.length_nil]
    omega

theorem digestHex_length (val : List Nat) : (digestHex val).length = 64 := by
  have h := flatMap_byteHexChars_length (sha256 val)
  rw [sha256_length] at h
  exact h

theorem digestHex_chars (val : List Nat) :
    ∀ c ∈ (digestHex val).data, c ∈ lowerHexDigits := by
  intro c hc
  have hc' : c ∈ (sha256 val).flatMap byteHexChars := hc
  rw [List.mem_flatMap] at hc'
  obtain ⟨b, hb, hcb⟩ := hc'
  have hb256 : b < 256 := sha256_lt val b hb
  simp only [byteHexChars, List.mem_cons, List.not_mem_nil, or_false] at hcb
  rcases hcb with h | h <;> subst h
  · exact hexDigitChar_mem (b / 16) (by omega)
  · exact hexDigitChar_mem (b % 16) (Nat.mod_lt _ (by norm_num))

theorem etagOf_data (buf : List Nat) :
    (etagOf buf).data = '"' :: ((digestHex buf).data ++ ['"']) := rfl

theorem etagOf_length (buf : List Nat) : (etagOf buf).length = 66 := by
  rw [etagOf, String.length_append, String.length_append, digestHex_length]
  rfl

/-! ## Claims -/

/--
C1: for every selection whose start and end anchors lie on text leaves
under root (in document order, start at or before end),
`computeSelectedIndices` walks the text leaves in document order
accumulating a running offset, sets `startOffset` to the running
offset at the start leaf plus the start anchor's in-node offset and
`endOffset` likewise at the end leaf (stopping the walk there), and
returns exactly the integer set
`{ i : startOffset ≤ i < min endOffset contentLength }`, for leaves of
arbitrary text length.
-/
theorem C1_selected_indices (leaves : List Nat)
    (startLeaf startOff endLeaf endOff clen : Nat)
    (hse : startLeaf ≤ endLeaf) (hlt : endLeaf < leaves.length) :
    walkLeaves startLeaf startOff endLeaf endOff leaves 0 0 0 0 =
      ((leaves.take startLeaf).sum + startOff, (leaves.take endLeaf).sum + endOff) ∧
    ∀ i, i ∈ computeSelectedIndices leaves startLeaf startOff endLeaf endOff clen ↔
      ((leaves.take startLeaf).sum + startOff ≤ i ∧
        i < min ((leaves.take endLeaf).sum + endOff) clen) :=
  computeSelectedIndices_spec leaves startLeaf startOff endLeaf endOff clen hse hlt

/--
C1 witness: content `"AB"` rendered as two one-character leaves,
selection covering just `"A"` (both anchors in the first leaf, offsets
0 and 1) selects index 0 and not index 1.
-/
theorem C1_selected_indices_witness :
    0 ∈ computeSelectedIndices [1, 1] 0 0 0 1 2 ∧
    ¬ 1 ∈ computeSelectedIndices [1, 1] 0 0 0 1 2 := by
  have h := C1_selected_indices [1, 1] 0 0 0 1 2 (by decide) (by decide)
  refine ⟨(h.2 0).mpr (by decide), fun hmem => absurd ((h.2 1).mp hmem) (by decide)⟩

/--
C2: the middleware's computed validator is deterministic — for any two
response bodies consisting of identical byte sequences, the computed
`ETag` tokens are identical, regardless of how the bytes were chunked
in transit (the hash is computed over the fully drained buffer).
-/
theorem C2_etag_deterministic (req : Request) (r1 r2 : Response)
    (c1 c2 : List (List Nat))
    (h1 : strTruthy (r1.headers.get? "etag") = false) (hb1 : r1.body = some c1)
    (h2 : strTruthy (r2.headers.get? "etag") = false) (hb2 : r2.body = some c2)
    (hbytes : c1.flatten = c2.flatten) :
    (onRequest req r1).headers.get? "etag" = (onRequest req r2).headers.get? "etag" ∧
    (onRequest req r1).headers.get? "etag" = some (etagOf c1.flatten) := by
  have e1 := onRequest_computed_etagHeader req r1 c1 h1 hb1
  have e2 := onRequest_computed_etagHeader req r2 c2 h2 hb2
  refine ⟨?_, e1⟩
  rw [e1, e2, hbytes]

/--
C2 witness: the bodies `[[1], [2]]` and `[[1, 2]]` carry the same
bytes in different chunkings and receive the same computed `ETag`.
-/
theorem C2_etag_deterministic_witness :
    (onRequest ⟨⟨[]⟩⟩ ⟨200, "OK", ⟨[]⟩, some [[1], [2]]⟩).headers.get? "etag" =
    (onRequest ⟨⟨[]⟩⟩ ⟨200, "OK", ⟨[]⟩, some [[1, 2]]⟩).headers.get? "etag" :=
  (C2_etag_deterministic ⟨⟨[]⟩⟩ _ _ [[1], [2]] [[1, 2]]
    (by decide) rfl (by decide) rfl (by decide)).1

/--
C3: for every response that already carries a (nonempty) `ETag` set by
the producer — if the request's `If-None-Match` equals it, the
middleware returns a 304 with empty body carrying that validator, and
computes no new hash (the outcome is independent of the response
body); otherwise it forwards the producer's response unchanged.
-/
theorem C3_producer_validator (req : Request) (resp : Response) (v : String)
    (hE : resp.headers.get? "etag" = some v) (hv : v ≠ "") :
    (req.headers.get? "if-none-match" = some v →
      (onRequest req resp).status = 304 ∧
      (onRequest req resp).body = none ∧
      (onRequest req resp).headers.get? "etag" = some v ∧
      (∀ b, onRequest req { resp with body := b } = onRequest req resp)) ∧
    (req.headers.get? "if-none-match" ≠ some v → onRequest req resp = resp) := by
  constructor
  · intro hM
    have heq := onRequest_existing_match req resp v hE hv hM
    rw [heq]
    refine ⟨rfl, rfl, rfl, ?_⟩
    intro b
    rw [onRequest_existing_match req { resp with body := b } v hE hv hM]
  · intro hM
    exact onRequest_existing_nomatch req resp v hE hv hM

/--
C3 witness: a producer response with `ETag: "v1"` and a request with
the matching `If-None-Match` yields a 304.
-/
theorem C3_producer_validator_witness :
    (onRequest ⟨⟨[("if-none-match", "\"v1\"")]⟩⟩
      ⟨200, "OK", ⟨[("etag", "\"v1\"")]⟩, some [[7]]⟩).status = 304 :=
  ((C3_producer_validator ⟨⟨[("if-none-match", "\"v1\"")]⟩⟩
    ⟨200, "OK", ⟨[("etag", "\"v1\"")]⟩, some [[7]]⟩
    "\"v1\"" (by decide) (by decide)).1 (by decide)).1

/--
C4: for every response with a body and no producer-set validator, when
`If-None-Match` does not equal the computed validator, the middleware
emits a response with status and statusText identical to the original,
body equal to the drained byte buffer (byte-identical to the original
body), and headers equal to the original headers plus `ETag` set to the
computed validator and `Cache-Control` set to
`public, max-age=31536000, must-revalidate`; all other headers are
unchanged.
-/
theorem C4_tagged_frame (req : Request) (resp : Response) (chunks : List (List Nat))
    (hE : strTruthy (resp.headers.get? "etag") = false)
    (hb : resp.body = some chunks)
    (hM : req.headers.get? "if-none-match" ≠ some (etagOf chunks.flatten)) :
    (onRequest req resp).status = resp.status ∧
    (onRequest req resp).statusText = resp.statusText ∧
    (onRequest req resp).body = some [chunks.flatten] ∧
    (onRequest req resp).bodyBytes = resp.bodyBytes ∧
    (onRequest req resp).headers =
      (resp.headers.set "ETag" (etagOf chunks.flatten)).set
        "Cache-Control" cacheControlValue ∧
    (onRequest req resp).headers.get? "etag" = some (etagOf chunks.flatten) ∧
    (onRequest req resp).headers.get? "cache-control" = some cacheControlValue ∧
    (∀ n, lowerName n ≠ lowerName "ETag" → lowerName n ≠ lowerName "Cache-Control" →
      (onRequest req resp).headers.get? n = resp.headers.get? n) := by
  have heq := onRequest_tagged req resp chunks hE hb hM
  rw [heq]
  refine ⟨rfl, rfl, rfl, ?_, rfl, ?_, ?_, ?_⟩
  · show Response.bodyBytes _ = Response.bodyBytes resp
    rw [Response.bodyBytes, Response.bodyBytes, hb]
    simp
  · rw [Headers.get?_set_ne _ _ _ _ (by decide), Headers.get?_set_match _ _ _ _ (by decide)]
  · rw [Headers.get?_set_match _ _ _ _ (by decide)]
  · intro n hn1 hn2
    rw [Headers.get?_set_ne _ _ _ _ hn2, Headers.get?_set_ne _ _ _ _ hn1]

/--
C4 witness: a tagged response retains an unrelated original header
(`content-type`) unchanged.
-/
theorem C4_tagged_frame_witness :
    (onRequest ⟨⟨[]⟩⟩
      ⟨200, "OK", ⟨[("content-type", "text/html")]⟩, some [[65]]⟩).headers.get?
      "content-type" = some "text/html" := by
  obtain ⟨-, -, -, -, -, -, -, hframe⟩ := C4_tagged_frame ⟨⟨[]⟩⟩
    ⟨200, "OK", ⟨[("content-type", "text/html")]⟩, some [[65]]⟩
    [[65]] (by decide) rfl (by decide)
  exact hframe "content-type" (by decide) (by decide)

/--
C5 counterexample: the claim says every NotModified outcome has
headers consisting of exactly `ETag` and `Cache-Control`; but on the
computed-validator path the 304 is built from a copy of the original
response headers (`new Headers(response.headers)`), so an original
`content-type` header survives on the 304.
-/
theorem C5_counterexample :
    (onRequest ⟨⟨[("if-none-match", etagOf [65])]⟩⟩
      ⟨200, "OK", ⟨[("content-type", "text/html")]⟩, some [[65]]⟩).status = 304 ∧
    (onRequest ⟨⟨[("if-none-match", etagOf [65])]⟩⟩
      ⟨200, "OK", ⟨[("content-type", "text/html")]⟩, some [[65]]⟩).headers.get?
      "content-type" = some "text/html" := by
  have heq := onRequest_computed_match ⟨⟨[("if-none-match", etagOf [65])]⟩⟩
    ⟨200, "OK", ⟨[("content-type", "text/html")]⟩, some [[65]]⟩ [[65]]
    (by decide) rfl rfl
  rw [heq]
  simp only [notModified304]
  refine ⟨trivial, ?_⟩
  rw [Headers.get?_set_ne _ _ _ _ (by decide : lowerName "content-type" ≠
      lowerName "Cache-Control"),
    Headers.get?_set_ne _ _ _ _ (by decide : lowerName "content-type" ≠ lowerName "ETag")]
  rfl

/--
C5 (amended): every NotModified outcome has status 304, empty body,
empty statusText, `ETag` equal to the validator and `Cache-Control`
equal to the long-lived directive; when the validator was producer-set
the headers are exactly `ETag` and `Cache-Control`, but when it was
freshly computed the 304 additionally retains all other headers of the
original response.
-/
theorem C5_notmodified_headers (req : Request) (resp : Response) (v : String)
    (chunks : List (List Nat)) :
    (resp.headers.get? "etag" = some v → v ≠ "" →
      req.headers.get? "if-none-match" = some v →
      onRequest req resp =
        notModified304 ⟨[("ETag", v), ("Cache-Control", cacheControlValue)]⟩) ∧
    (strTruthy (resp.headers.get? "etag") = false → resp.body = some chunks →
      req.headers.get? "if-none-match" = some (etagOf chunks.flatten) →
      (onRequest req resp).status = 304 ∧
      (onRequest req resp).body = none ∧
      (onRequest req resp).statusText = "" ∧
      (onRequest req resp).headers.get? "etag" = some (etagOf chunks.flatten) ∧
      (onRequest req resp).headers.get? "cache-control" = some cacheControlValue ∧
      (∀ n, lowerName n ≠ lowerName "ETag" → lowerName n ≠ lowerName "Cache-Control" →
        (onRequest req resp).headers.get? n = resp.headers.get? n)) := by
  constructor
  · intro hE hv hM
    exact onRequest_existing_match req resp v hE hv hM
  · intro hE hb hM
    have heq := onRequest_computed_match req resp chunks hE hb hM
    rw [heq]
    simp only [notModified304]
    refine ⟨trivial, trivial, trivial, ?_, ?_, ?_⟩
    · rw [Headers.get?_set_ne _ _ _ _ (by decide : lowerName "etag" ≠
          lowerName "Cache-Control"),
        Headers.get?_set_match _ _ _ _ (by decide : lowerName "etag" = lowerName "ETag")]
    · rw [Headers.get?_set_match _ _ _ _ (by decide : lowerName "cache-control" =
          lowerName "Cache-Control")]
    · intro n hn1 hn2
      rw [Headers.get?_set_ne _ _ _ _ hn2, Headers.get?_set_ne _ _ _ _ hn1]

/--
C5 witness: producer-set validator `"w"` with matching `If-None-Match`
yields the fresh two-header 304.
-/
theorem C5_notmodified_headers_witness :
    onRequest ⟨⟨[("if-none-match", "\"w\"")]⟩⟩
      ⟨200, "OK", ⟨[("etag", "\"w\"")]⟩, none⟩ =
      notModified304 ⟨[("ETag", "\"w\""), ("Cache-Control", cacheControlValue)]⟩ :=
  (C5_notmodified_headers ⟨⟨[("if-none-match", "\"w\"")]⟩⟩
    ⟨200, "OK", ⟨[("etag", "\"w\"")]⟩, none⟩ "\"w\"" []).1
    (by decide) (by decide) (by decide)

/--
C6 counterexample: the claim says every response with no body is
forwarded unchanged with no `Cache-Control` added; but a body-less
response that carries a producer `ETag` matched by `If-None-Match` is
replaced by a fresh 304 that gains a `Cache-Control` header.
-/
theorem C6_counterexample :
    (onRequest ⟨⟨[("if-none-match", "\"v1\"")]⟩⟩
      ⟨304, "", ⟨[("etag", "\"v1\"")]⟩, none⟩).headers.get? "cache-control" =
      some cacheControlValue ∧
    (⟨304, "", ⟨[("etag", "\"v1\"")]⟩, none⟩ : Response).headers.get?
      "cache-control" = none := by
  decide

/--
C6 (amended): every response with no body at all is forwarded
unchanged — no `ETag` added, no `Cache-Control` added, no hash
computed — unless it already carries a nonempty producer-set `ETag`
that the request's `If-None-Match` equals (in which case a fresh 304
is emitted instead).
-/
theorem C6_nobody_passthrough (req : Request) (resp : Response)
    (hb : resp.body = none)
    (hnm : ∀ v, resp.headers.get? "etag" = some v → v ≠ "" →
      req.headers.get? "if-none-match" ≠ some v) :
    onRequest req resp = resp := by
  cases hEo : resp.headers.get? "etag" with
  | none =>
    refine onRequest_nobody req resp ?_ hb
    rw [hEo]
    rfl
  | some v =>
    by_cases hv : v = ""
    · refine onRequest_nobody req resp ?_ hb
      rw [hEo, hv]
      rfl
    · exact onRequest_existing_nomatch req resp v hEo hv (hnm v hEo hv)

/--
C6 witness: a 204 with no body and no validator passes through
unchanged.
-/
theorem C6_nobody_passthrough_witness :
    onRequest ⟨⟨[]⟩⟩ ⟨204, "No Content", ⟨[]⟩, none⟩ =
      ⟨204, "No Content", ⟨[]⟩, none⟩ :=
  C6_nobody_passthrough ⟨⟨[]⟩⟩ ⟨204, "No Content", ⟨[]⟩, none⟩ rfl
    (fun _ hv _ => Option.noConfusion hv)

/--
C7: for every collapsed selection (zero selected length) and for every
selection whose common ancestor container is not contained within
root, the computed selected-index set is the empty set.
-/
theorem C7_invalid_selection_empty (s : SelectionInfo) (clen : Nat)
    (hinv : s.textLength = 0 ∨ s.containedInRoot = false) :
    handleSelectionChange (some s) clen = [] := by
  unfold handleSelectionChange
  rcases hinv with h | h
  · simp [h]
  · simp [h]

/--
C7 witness: a collapsed selection (selected text length 0) yields the
empty set.
-/
theorem C7_invalid_selection_empty_witness :
    handleSelectionChange (some ⟨1, 0, true, [1], 0, 0, 0, 0⟩) 5 = [] :=
  C7_invalid_selection_empty ⟨1, 0, true, [1], 0, 0, 0, 0⟩ 5 (Or.inl rfl)

/--
C8: if any failure occurs while walking the leaves or reading offsets,
the computation does not throw to its caller: the selected-index set
handed to the renderer is empty (clearing the highlighting) and the
failure is reported through the side-channel log.  (The embedded
handler is a pure function of its inputs: it mutates neither the
document, nor the selection, nor the container.)
-/
theorem C8_walk_failure_degrades (err : String) (clen : Nat) :
    (handleSelectionResult (Except.error err) clen).1 = [] ∧
    (handleSelectionResult (Except.error err) clen).2 =
      ["Selection calculation failed: " ++ err] :=
  ⟨rfl, rfl⟩

/--
C9 counterexample: the claim says a drain/hash failure falls back to
forwarding the original response; but the middleware has no handler
for it — with a failing drain the middleware's result is the error
itself, not the forwarded original response.
-/
theorem C9_counterexample :
    onRequestE (fun _ => Except.error "boom") ⟨⟨[]⟩⟩
      ⟨200, "OK", ⟨[]⟩, some [[65]]⟩ = Except.error "boom" ∧
    onRequestE (fun _ => Except.error "boom") ⟨⟨[]⟩⟩
      ⟨200, "OK", ⟨[]⟩, some [[65]]⟩ ≠
      Except.ok ⟨200, "OK", ⟨[]⟩, some [[65]]⟩ := by
  have h1 : onRequestE (fun _ => Except.error "boom") ⟨⟨[]⟩⟩
      ⟨200, "OK", ⟨[]⟩, some [[65]]⟩ = Except.error "boom" := rfl
  refine ⟨h1, ?_⟩
  rw [h1]
  intro hcontra
  exact Except.noConfusion hcontra

/--
C9 (amended): if draining the response body (or hashing it) fails, the
failure propagates out of the middleware — the source contains no
fallback, so the original response is not forwarded and the caller
sees the error.
-/
theorem C9_drain_failure_propagates (drain : Response → Except String (List Nat))
    (req : Request) (resp : Response) (chunks : List (List Nat)) (e : String)
    (hE : strTruthy (resp.headers.get? "etag") = false)
    (hb : resp.body = some chunks)
    (hd : drain resp = Except.error e) :
    onRequestE drain req resp = Except.error e :=
  onRequestE_drain_error drain req resp chunks e hE hb hd

/--
C9 witness: a concrete failing drain propagates its error.
-/
theorem C9_drain_failure_propagates_witness :
    onRequestE (fun _ => Except.error "fail") ⟨⟨[]⟩⟩
      ⟨200, "", ⟨[]⟩, some [[1]]⟩ = Except.error "fail" :=
  C9_drain_failure_propagates (fun _ => Except.error "fail") ⟨⟨[]⟩⟩
    ⟨200, "", ⟨[]⟩, some [[1]]⟩ [[1]] "fail" (by decide) rfl rfl

/--
C10: for every response body, the ETag the middleware computes is a
double-quoted string whose inside is the hex digest: the digest is 32
bytes rendered as exactly two lowercase hex digits each, so the hex
part has 64 lowercase hexadecimal characters and the quoted token's
length is always 66.
-/
theorem C10_etag_format (bs : List Nat) :
    (etagOf bs).length = 66 ∧
    (etagOf bs).data = '"' :: ((digestHex bs).data ++ ['"']) ∧
    (sha256 bs).length = 32 ∧
    (digestHex bs).length = 64 ∧
    (∀ c ∈ (digestHex bs).data, c ∈ lowerHexDigits) :=
  ⟨etagOf_length bs, etagOf_data bs, sha256_length bs, digestHex_length bs,
    digestHex_chars bs⟩
